import Mathlib

/-!
Verification of the distributed request-dispatch and result-aggregation engine
of `lmms_eval/evaluator.py` (function `evaluate` and its helpers).

The Python source is shallowly embedded: machine-level mutation (appending
responses onto `Instance.resps`) is modelled by counting occurrences in the
dispatched copy list, Python dicts that are iterated in insertion order are
modelled as association lists, and the collective primitives
(`accelerator.gather`, `pad_across_processes`, `all_gather_object`) are
modelled by their documented semantics: rank-major concatenation after
padding every rank to a common length.
-/

namespace LmmsEval

/-! ### Padding ledger (evaluator.py lines 405-413)

For each task, every rank reports its local instance count; the gathered
list `gathered_item` holds one count per rank, and the rank-local padding is
`max(gathered_item) - gathered_item[lm.rank]`. -/

/-- Python `max` over the gathered per-rank instance counts.  The counts are
natural numbers, so seeding the fold with `0` agrees with Python `max` on
every non-empty list. -/
def listMax (l : List Nat) : Nat := l.foldr max 0

/-- Embeds `numpad = max(gathered_item) - gathered_item[lm.rank]`
(evaluator.py line 411). -/
def numpad (gathered : List Nat) (rank : Nat) : Nat :=
  listMax gathered - gathered.getD rank 0

theorem le_listMax_of_mem {a : Nat} {l : List Nat} (h : a ∈ l) : a ≤ listMax l := by
  induction l with
  | nil => cases h
  | cons b t ih =>
    rcases List.mem_cons.mp h with rfl | ht
    · exact Nat.le_max_left _ _
    · exact Nat.le_trans (ih ht) (Nat.le_max_right _ _)

theorem getD_le_listMax {l : List Nat} {r : Nat} (h : r < l.length) :
    l.getD r 0 ≤ listMax l := by
  have hmem : l.getD r 0 ∈ l := by
    rw [List.getD_eq_getElem?_getD, List.getElem?_eq_getElem h]
    exact List.getElem_mem h
  exact le_listMax_of_mem hmem

/-- C2. For every request type the padding ledger entry of a rank is the
maximum of all ranks' gathered local instance counts minus that rank's own
count (evaluator.py line 411), and consequently
`local_count[r] + padding[r]` is the same value (namely the maximum) for
every rank `r` below the worker count, i.e. every rank issues the same
number of calls per request type. -/
theorem padding_ledger_balances (gathered : List Nat) (r1 r2 : Nat)
    (h1 : r1 < gathered.length) (h2 : r2 < gathered.length) :
    numpad gathered r1 = listMax gathered - gathered.getD r1 0 ∧
    gathered.getD r1 0 + numpad gathered r1 = listMax gathered ∧
    gathered.getD r1 0 + numpad gathered r1 =
      gathered.getD r2 0 + numpad gathered r2 := by
  have hle1 := getD_le_listMax h1
  have hle2 := getD_le_listMax h2
  refine ⟨rfl, ?_, ?_⟩ <;> (unfold numpad; omega)

/-- Witness for `padding_ledger_balances`: on the gathered counts `[3, 1]`
(rank 0 reported 3 local instances, rank 1 reported 1), both ranks end up
issuing `3` calls. -/
theorem padding_ledger_balances_witness :
    0 < ([3, 1] : List Nat).length ∧ 1 < ([3, 1] : List Nat).length ∧
    (numpad [3, 1] 0 = listMax [3, 1] - ([3, 1] : List Nat).getD 0 0 ∧
     ([3, 1] : List Nat).getD 0 0 + numpad [3, 1] 0 = listMax [3, 1] ∧
     ([3, 1] : List Nat).getD 0 0 + numpad [3, 1] 0 =
       ([3, 1] : List Nat).getD 1 0 + numpad [3, 1] 1) :=
  ⟨by decide, by decide, padding_ledger_balances [3, 1] 0 1 (by decide) (by decide)⟩

/-! ### Stride sharding (evaluator.py lines 476-481)

`doc_iterator = itertools.islice(enumerate(docs), lm.rank, limit, lm.world_size)`
hands rank `r` the documents at positions `r, r + W, r + 2W, ...` strictly
below the stop bound (the limit, truncated by the document count). -/

/-- Embeds `itertools.islice(enumerate(docs), start, stop, step)` at the
level of document positions: the positions `start, start + step, ...`
strictly below `stop`. -/
def isliceIdx (start stop step : Nat) : List Nat :=
  (List.range stop).filter (fun i => start ≤ i && (i - start) % step == 0)

/-- The document shard of `rank` under `world_size` workers with effective
stop bound `stop` (evaluator.py line 476). -/
def docShard (rank worldSize stop : Nat) : List Nat :=
  isliceIdx rank stop worldSize

/-- All per-rank shards, concatenated in rank order. -/
def allShards (worldSize stop : Nat) : List Nat :=
  ((List.range worldSize).map (fun r => docShard r worldSize stop)).flatten

theorem mem_docShard {rank worldSize stop i : Nat} :
    i ∈ docShard rank worldSize stop ↔
      i < stop ∧ rank ≤ i ∧ (i - rank) % worldSize = 0 := by
  unfold docShard isliceIdx
  simp only [List.mem_filter, List.mem_range, Bool.and_eq_true, decide_eq_true_eq,
    beq_iff_eq]

theorem mem_docShard_iff_mod {rank worldSize stop i : Nat}
    (hr : rank < worldSize) :
    i ∈ docShard rank worldSize stop ↔ i < stop ∧ i % worldSize = rank := by
  rw [mem_docShard]
  constructor
  · rintro ⟨hstop, hle, hmod⟩
    refine ⟨hstop, ?_⟩
    have hdvd : worldSize ∣ (i - rank) := Nat.dvd_of_mod_eq_zero hmod
    rcases hdvd with ⟨k, hk⟩
    have hi : i = rank + worldSize * k := by omega
    subst hi
    rw [Nat.add_mul_mod_self_left]
    exact Nat.mod_eq_of_lt hr
  · rintro ⟨hstop, rfl⟩
    refine ⟨hstop, Nat.mod_le i worldSize, ?_⟩
    have hdm := Nat.div_add_mod i worldSize
    have : i - i % worldSize = worldSize * (i / worldSize) := by omega
    rw [this]
    exact Nat.mul_mod_right _ _

theorem nodup_docShard (rank worldSize stop : Nat) :
    (docShard rank worldSize stop).Nodup :=
  List.Nodup.filter _ (List.nodup_range stop)

theorem count_docShard {rank worldSize stop : Nat} (hr : rank < worldSize)
    (i : Nat) :
    (docShard rank worldSize stop).count i =
      if i < stop ∧ i % worldSize = rank then 1 else 0 := by
  by_cases h : i < stop ∧ i % worldSize = rank
  · rw [if_pos h]
    exact List.count_eq_one_of_mem (nodup_docShard _ _ _)
      ((mem_docShard_iff_mod hr).mpr h)
  · rw [if_neg h]
    exact List.count_eq_zero_of_not_mem
      (fun hmem => h ((mem_docShard_iff_mod hr).mp hmem))

theorem sum_indicator_range (r0 : Nat) :
    ∀ W : Nat, (((List.range W).map (fun r => if r0 = r then 1 else 0)).sum)
      = if r0 < W then 1 else 0 := by
  intro W
  induction W with
  | zero => simp
  | succ n ih =>
    rw [List.range_succ, List.map_append, List.sum_append, ih]
    by_cases h1 : r0 < n
    · have h2 : r0 ≠ n := by omega
      simp [h1, h2, Nat.lt_succ_of_lt h1]
    · by_cases h2 : r0 = n
      · subst h2
        simp [h1, Nat.lt_succ_self]
      · have h3 : ¬ r0 < n + 1 := by omega
        simp [h1, h2, h3]

theorem count_allShards {worldSize stop : Nat} (hW : 1 ≤ worldSize) (i : Nat) :
    (allShards worldSize stop).count i = if i < stop then 1 else 0 := by
  unfold allShards
  rw [List.count_flatten, List.map_map]
  have hmap : (List.range worldSize).map (List.count i ∘ fun r => docShard r worldSize stop)
      = (List.range worldSize).map (fun r => if i < stop ∧ i % worldSize = r then 1 else 0) := by
    apply List.map_congr_left
    intro r hr
    exact count_docShard (List.mem_range.mp hr) i
  rw [hmap]
  by_cases hstop : i < stop
  · have hmap2 : (List.range worldSize).map (fun r => if i < stop ∧ i % worldSize = r then 1 else 0)
        = (List.range worldSize).map (fun r => if i % worldSize = r then 1 else 0) := by
      apply List.map_congr_left
      intro r _
      simp [hstop]
    rw [hmap2, sum_indicator_range]
    have : i % worldSize < worldSize := Nat.mod_lt _ (by omega)
    simp [hstop, this]
  · have hmap2 : (List.range worldSize).map (fun r => if i < stop ∧ i % worldSize = r then 1 else 0)
        = (List.range worldSize).map (fun _ => 0) := by
      apply List.map_congr_left
      intro r _
      simp [hstop]
    rw [hmap2, if_neg hstop]
    simp

theorem allShards_perm_range {worldSize stop : Nat} (hW : 1 ≤ worldSize) :
    (allShards worldSize stop).Perm (List.range stop) := by
  rw [List.perm_iff_count]
  intro i
  rw [count_allShards hW i]
  by_cases h : i < stop
  · rw [if_pos h]
    exact (List.count_eq_one_of_mem (List.nodup_range stop) (List.mem_range.mpr h)).symm
  · rw [if_neg h]
    exact (List.count_eq_zero_of_not_mem (fun hm => h (List.mem_range.mp hm))).symm

/-- C6. For every worker count `W >= 1` and every stop bound, the per-rank
shards produced by the stride-slicing rule of evaluator.py line 476
(`itertools.islice(enumerate(docs), rank, limit, world_size)`) are pairwise
disjoint, and their rank-order concatenation is a permutation of the
limit-truncated document position set `[0, stop)`: every document position
below the bound appears in exactly one rank's shard, exactly once. -/
theorem docShard_partition (worldSize stop : Nat) (hW : 1 ≤ worldSize) :
    (∀ r1 r2, r1 < worldSize → r2 < worldSize → r1 ≠ r2 →
      ∀ i, i ∈ docShard r1 worldSize stop → i ∉ docShard r2 worldSize stop) ∧
    (allShards worldSize stop).Perm (List.range stop) := by
  constructor
  · intro r1 r2 h1 h2 hne i hi1 hi2
    have e1 := ((mem_docShard_iff_mod h1).mp hi1).2
    have e2 := ((mem_docShard_iff_mod h2).mp hi2).2
    exact hne (e1 ▸ e2 ▸ rfl)
  · exact allShards_perm_range hW

/-- Witness for `docShard_partition` at `world_size = 2`, `stop = 5`. -/
theorem docShard_partition_witness :
    1 ≤ 2 ∧
    ((∀ r1 r2, r1 < 2 → r2 < 2 → r1 ≠ r2 →
        ∀ i, i ∈ docShard r1 2 5 → i ∉ docShard r2 2 5) ∧
      (allShards 2 5).Perm (List.range 5)) :=
  ⟨by decide, docShard_partition 2 5 (by decide)⟩

/-! ### Cross-rank reduction of numeric metric lists (evaluator.py lines 529-564)

`pad_across_processes` pads every rank's tensor to the maximum rank length
with `pad_value` (the minimum representable float32 value, modelled here as
an abstract sentinel integer), `gather` concatenates in rank order, and the
coordinator drops the sentinel entries (`gathered_item != pad_value`, or
`gathered_item[:, 0] != pad_value` for tuple-valued metrics) and rebuilds
tuples. -/

/-- Pad one rank's scalar metric list up to the common length with the
sentinel, as `pad_across_processes` does. -/
def padTo (len : Nat) (pad : Int) (l : List Int) : List Int :=
  l ++ List.replicate (len - l.length) pad

/-- The maximum per-rank list length, the length every rank is padded to. -/
def maxRankLen (ranks : List (List Int)) : Nat := listMax (ranks.map List.length)

/-- Collective gather of the padded scalar arrays: rank-major concatenation. -/
def gatherPadded (pad : Int) (ranks : List (List Int)) : List Int :=
  (ranks.map (padTo (maxRankLen ranks) pad)).flatten

/-- The coordinator-side unpadding `gathered_item[gathered_item != pad_value]`
(evaluator.py line 554) applied to the gathered scalar array. -/
def reduceScalarMetric (pad : Int) (ranks : List (List Int)) : List Int :=
  (gatherPadded pad ranks).filter (fun x => !(x == pad))

/-- Pad one rank's list of width-`k` tuple rows up to the common row count
with all-sentinel rows, as `pad_across_processes` does on a 2-D tensor. -/
def padRowsTo (len k : Nat) (pad : Int) (rows : List (List Int)) : List (List Int) :=
  rows ++ List.replicate (len - rows.length) (List.replicate k pad)

/-- The maximum per-rank row count for a tuple-valued metric. -/
def maxRankRows (ranks : List (List (List Int))) : Nat := listMax (ranks.map List.length)

/-- Collective gather of the padded tuple rows: rank-major concatenation. -/
def gatherPaddedRows (pad : Int) (k : Nat) (ranks : List (List (List Int))) :
    List (List Int) :=
  (ranks.map (padRowsTo (maxRankRows ranks) k pad)).flatten

/-- The coordinator-side unpadding `gathered_item[gathered_item[:, 0] != pad_value]`
(evaluator.py line 552): a row survives iff its first component is not the
sentinel.  The subsequent `[tuple(g) for g in gathered_item]` rebuilds the
tuples and is the identity on the row representation used here. -/
def reduceTupleMetric (pad : Int) (k : Nat) (ranks : List (List (List Int))) :
    List (List Int) :=
  (gatherPaddedRows pad k ranks).filter (fun row => !(row.head? == some (pad)))

theorem filter_padTo {pad : Int} {l : List Int} (m : Nat) (h : pad ∉ l) :
    (padTo m pad l).filter (fun x => !(x == pad)) = l := by
  unfold padTo
  rw [List.filter_append]
  have h1 : l.filter (fun x => !(x == pad)) = l := by
    rw [List.filter_eq_self]
    intro a ha
    simp only [Bool.not_eq_true', beq_eq_false_iff_ne, ne_eq]
    exact fun e => h (e ▸ ha)
  have h2 : (List.replicate (m - l.length) pad).filter (fun x => !(x == pad)) = [] := by
    rw [List.filter_eq_nil_iff]
    intro a ha
    rw [List.eq_of_mem_replicate ha]
    simp
  rw [h1, h2, List.append_nil]

theorem filter_flatten_padTo (pad : Int) (m : Nat) :
    ∀ ranks : List (List Int), (∀ l ∈ ranks, pad ∉ l) →
      ((ranks.map (padTo m pad)).flatten.filter (fun x => !(x == pad))) = ranks.flatten := by
  intro ranks h
  induction ranks with
  | nil => simp
  | cons l t ih =>
    rw [List.map_cons, List.flatten_cons, List.filter_append, List.flatten_cons,
      filter_padTo m (h l (List.mem_cons_self l t)),
      ih (fun l' hl' => h l' (List.mem_cons_of_mem _ hl'))]

theorem head?_replicate_sentinel {pad : Int} {k : Nat} (hk : 0 < k) :
    (List.replicate k pad).head? = some pad := by
  cases k with
  | zero => omega
  | succ n => rw [List.replicate_succ, List.head?_cons]

theorem filter_padRowsTo {pad : Int} {rows : List (List Int)} (m k : Nat)
    (hk : 0 < k) (h : ∀ row ∈ rows, row.head? ≠ some pad) :
    (padRowsTo m k pad rows).filter (fun row => !(row.head? == some (pad))) = rows := by
  unfold padRowsTo
  rw [List.filter_append]
  have h1 : rows.filter (fun row => !(row.head? == some (pad))) = rows := by
    rw [List.filter_eq_self]
    intro a ha
    simp only [Bool.not_eq_true', beq_eq_false_iff_ne, ne_eq]
    exact h a ha
  have h2 : (List.replicate (m - rows.length) (List.replicate k pad)).filter
      (fun row => !(row.head? == some (pad))) = [] := by
    rw [List.filter_eq_nil_iff]
    intro a ha
    rw [List.eq_of_mem_replicate ha]
    simp [head?_replicate_sentinel hk]
  rw [h1, h2, List.append_nil]

theorem filter_flatten_padRowsTo (pad : Int) (m k : Nat) (hk : 0 < k) :
    ∀ ranks : List (List (List Int)), (∀ l ∈ ranks, ∀ row ∈ l, row.head? ≠ some pad) →
      ((ranks.map (padRowsTo m k pad)).flatten.filter
        (fun row => !(row.head? == some (pad)))) = ranks.flatten := by
  intro ranks h
  induction ranks with
  | nil => simp
  | cons l t ih =>
    rw [List.map_cons, List.flatten_cons, List.filter_append, List.flatten_cons,
      filter_padRowsTo m k hk (h l (List.mem_cons_self l t)),
      ih (fun l' hl' => h l' (List.mem_cons_of_mem _ hl'))]

/-- C3. Round-trip of the cross-rank numeric reduction (evaluator.py lines
529-564): for arbitrary per-rank list lengths, padding every rank to the
maximum length with the sentinel, gathering rank-major, and dropping the
sentinel entries on the coordinator returns exactly the rank-major
concatenation of the original per-rank lists, both for scalar metrics and
for width-`k` tuple metrics; in particular the reduced length is the sum of
the original per-rank lengths (no padding leakage, no data loss).  The
hypotheses state the spec's sentinel guarantee: the sentinel value does not
occur in real data (for tuples: no real row starts with it). -/
theorem cross_rank_reduction_roundtrip (pad : Int) (ranks : List (List Int))
    (hs : ∀ l ∈ ranks, pad ∉ l)
    (k : Nat) (hk : 0 < k) (tranks : List (List (List Int)))
    (ht : ∀ l ∈ tranks, ∀ row ∈ l, row.head? ≠ some pad) :
    reduceScalarMetric pad ranks = ranks.flatten ∧
    (reduceScalarMetric pad ranks).length = (ranks.map List.length).sum ∧
    reduceTupleMetric pad k tranks = tranks.flatten ∧
    (reduceTupleMetric pad k tranks).length = (tranks.map List.length).sum := by
  have e1 : reduceScalarMetric pad ranks = ranks.flatten :=
    filter_flatten_padTo pad (maxRankLen ranks) ranks hs
  have e2 : reduceTupleMetric pad k tranks = tranks.flatten :=
    filter_flatten_padRowsTo pad (maxRankRows tranks) k hk tranks ht
  refine ⟨e1, ?_, e2, ?_⟩
  · rw [e1, List.length_flatten]
  · rw [e2, List.length_flatten]

/-- Witness for `cross_rank_reduction_roundtrip`: two ranks with scalar
value lists `[1, 2]` and `[3]`, and tuple-row lists `[[1, 2]]` and
`[[3, 4], [5, 6]]`, sentinel `-100`. -/
theorem cross_rank_reduction_roundtrip_witness :
    (∀ l ∈ [[(1 : Int), 2], [3]], (-100 : Int) ∉ l) ∧
    (0 : Nat) < 2 ∧
    (∀ l ∈ [[[(1 : Int), 2]], [[3, 4], [5, 6]]], ∀ row ∈ l, row.head? ≠ some (-100 : Int)) ∧
    (reduceScalarMetric (-100) [[1, 2], [3]] = [[(1 : Int), 2], [3]].flatten ∧
     (reduceScalarMetric (-100) [[1, 2], [3]]).length =
       ([[(1 : Int), 2], [3]].map List.length).sum ∧
     reduceTupleMetric (-100) 2 [[[1, 2]], [[3, 4], [5, 6]]] =
       [[[(1 : Int), 2]], [[3, 4], [5, 6]]].flatten ∧
     (reduceTupleMetric (-100) 2 [[[1, 2]], [[3, 4], [5, 6]]]).length =
       ([[[(1 : Int), 2]], [[3, 4], [5, 6]]].map List.length).sum) :=
  ⟨by decide, by decide, by decide,
    cross_rank_reduction_roundtrip (-100) [[1, 2], [3]] (by decide) 2 (by decide)
      [[[1, 2]], [[3, 4], [5, 6]]] (by decide)⟩

/-! ### World-size invariance of the aggregate (C1)

The spec requires the aggregate metric values of `evaluate` to be identical
for `world_size = 1` and `world_size = N`.  Two facts are proved below.

First, the intended pipeline — stride sharding (line 476), per-document
metric collection in shard order, cross-rank rank-major reduction, and a
permutation-invariant aggregation — is indeed world-size invariant
(`intended_pipeline_worldsize_invariant`).

Second, the code as written cannot exhibit this property, for two
independent reasons, encountered in source order:

* On every ordinary input — at least one filter pipeline and at least one
  document — the postprocess loop (lines 442-519) reaches line 485, whose
  list comprehension reads the undefined name `filter_key` (the filter
  loop at line 457 binds `key`); the run raises `NameError` at every world
  size, before the reduction or aggregation stages, and no aggregate is
  produced at all.

* In the one state that survives line 485 — a task with documents but an
  empty filter set, so the loop at line 457 has nothing to iterate and the
  per-document body never runs — a multi-rank run still aborts: line 521
  enters the `WORLD_SIZE > 1` branch, whose first statement (line 530)
  iterates `vals.items()`, but the only assignment to the local name
  `vals` in the whole function is `vals = vals_torch` at line 564, after
  that read, so Python raises `UnboundLocalError`.  The identical input at
  `world_size = 1` skips that branch and returns its result structure
  (with an empty aggregate key set: `sample_metrics` keys are created only
  at line 519, inside the per-document body that did not run). -/

/-- The per-rank metric value lists after stride sharding, concatenated
rank-major exactly as the cross-rank reduction orders them. -/
def reducedMetricValues (vals : Nat → Int) (worldSize stop : Nat) : List Int :=
  ((List.range worldSize).map (fun r => (docShard r worldSize stop).map vals)).flatten

theorem reducedMetricValues_eq_map_allShards (vals : Nat → Int) (worldSize stop : Nat) :
    reducedMetricValues vals worldSize stop = (allShards worldSize stop).map vals := by
  unfold reducedMetricValues allShards
  rw [List.map_flatten, List.map_map]
  rfl

/-- The intended end-to-end property behind C1: any aggregation function
that is invariant under permutations of its input list (the mean, and every
other symmetric aggregate) yields the same value on the rank-major reduced
list for any worker count `W >= 1` as on the single-worker list. -/
theorem intended_pipeline_worldsize_invariant {β : Type} (f : List Int → β)
    (hf : ∀ l l' : List Int, l.Perm l' → f l = f l')
    (vals : Nat → Int) (worldSize stop : Nat) (hW : 1 ≤ worldSize) :
    f (reducedMetricValues vals worldSize stop) = f (reducedMetricValues vals 1 stop) := by
  have h1 : (reducedMetricValues vals worldSize stop).Perm ((List.range stop).map vals) := by
    rw [reducedMetricValues_eq_map_allShards]
    exact (allShards_perm_range hW).map vals
  have h2 : (reducedMetricValues vals 1 stop).Perm ((List.range stop).map vals) := by
    rw [reducedMetricValues_eq_map_allShards]
    exact (allShards_perm_range (by omega)).map vals
  exact (hf _ _ h1).trans (hf _ _ h2).symm

/-- The error Python raises when `evaluate` reads the local name `vals` at
line 530: the sole assignment to `vals` is at line 564. -/
def unboundValsMsg : String :=
  "UnboundLocalError: local variable vals referenced before assignment"

/-- Embeds the result-collection and aggregation tail of `evaluate`
(lines 442-668) at the granularity C1 is stated at, following rank 0's
control flow (rank 0 holds document position 0 whenever `stop > 0`), for a
task with `stop` documents and `numFilters` filter pipelines.  In source
order: with at least one filter pipeline and at least one document the
per-document body runs and its first expression (line 485) raises
`NameError` on the undefined name `filter_key` — at every world size;
otherwise, with more than one worker, line 530 raises `UnboundLocalError`
on the local `vals`, read before its only assignment (line 564); otherwise
rank 0 aggregates each `sample_metrics` key — and the key set is empty,
because keys are created only at line 519, inside the per-document body
that did not run in the surviving cases. -/
def evaluateAggregates (numFilters stop worldSize : Nat) : Except String (List Rat) :=
  if 0 < numFilters ∧ 0 < stop then
    Except.error ("NameError: name filter_key is not defined")
  else if 1 < worldSize then
    Except.error (unboundValsMsg)
  else
    Except.ok []

/-- C1 fails on the code.  On every ordinary input — here one filter
pipeline and three documents — `evaluate` crashes at line 485
(`NameError: filter_key`, the C7 bug) identically at both world sizes, so
no aggregate metric values are produced at all (last two conjuncts).  In
the one state that survives line 485 (three documents, empty filter set),
the `world_size = 2` run still aborts, with `UnboundLocalError` from the
read of the unassigned local `vals` at line 530, while the identical
`world_size = 1` input skips that branch and returns its (key-less)
result structure; those two outcomes differ, so the aggregate output of
`evaluate` is not invariant in the worker count. -/
theorem evaluate_worldsize_determinism_broken :
    evaluateAggregates 0 3 2 = Except.error (unboundValsMsg) ∧
    evaluateAggregates 0 3 1 = Except.ok [] ∧
    Except.error (unboundValsMsg) ≠ (Except.ok ([] : List Rat) : Except String (List Rat)) ∧
    evaluateAggregates 1 3 2 = Except.error ("NameError: name filter_key is not defined") ∧
    evaluateAggregates 1 3 1 = Except.error ("NameError: name filter_key is not defined") := by
  refine ⟨rfl, rfl, ?_, rfl, rfl⟩
  intro h
  exact Except.noConfusion h

/-! ### Request dispatch (evaluator.py lines 417-436)

`Instance` carries the fields of `lmms_eval.api.instance.Instance` that the
dispatch and collection logic reads.  Response accumulation
(`req.resps.append(x)`) is modelled by counting how often the backing
instance occurs among the copies that `zip(resps, cloned_reqs)` pairs with
a response: each occurrence appends exactly one response. -/

structure Instance where
  doc_id : Nat
  idx : Nat
  repeats : Nat
  filtered_resps : List (String × Int)
deriving DecidableEq, Repr

/-- Embeds lines 420-422: each request is expanded into `repeats`
logically-identical copies sharing the same backing instance. -/
def clonedReqs (reqs : List Instance) : List Instance :=
  (reqs.map (fun r => List.replicate r.repeats r)).flatten

/-- Embeds lines 424-426: with more than one worker and a positive padding
count, each padding iteration appends `[req] * req.repeats`, where `req` is
the loop variable left over from the cloning loop — i.e. the last instance
of the group.  (If the group were empty, that name would be unbound in
Python; the `none` branch is never reached by the theorems below, which
require the counted instance to be a member of the group.) -/
def paddedReqs (worldSize numpadCount : Nat) (reqs : List Instance) : List Instance :=
  if 1 < worldSize ∧ 0 < numpadCount then
    match reqs.getLast? with
    | some r =>
        clonedReqs reqs ++ (List.replicate numpadCount (List.replicate r.repeats r)).flatten
    | none => clonedReqs reqs
  else clonedReqs reqs

/-- The number of responses accumulated on instance `r` once dispatch of its
request-type group completes: `zip(resps, cloned_reqs)` (line 432) pairs
the first `min(len(resps), len(cloned_reqs))` copies with responses and
appends one response per paired occurrence of `r`. -/
def dispatchRespCount (worldSize numpadCount : Nat) (reqs : List Instance)
    (numResps : Nat) (r : Instance) : Nat :=
  ((paddedReqs worldSize numpadCount reqs).take numResps).count r

/-- The outcome of dispatching one request-type group, as the per-instance
response counts.  Lines 429-433 perform no validation of the backend's
response count, so the embedding is total and always succeeds. -/
def dispatchOutcome (worldSize numpadCount : Nat) (reqs : List Instance)
    (numResps : Nat) : Except String (List (Instance × Nat)) :=
  Except.ok (reqs.map (fun r =>
    (r, dispatchRespCount worldSize numpadCount reqs numResps r)))

theorem count_clonedReqs_zero {r : Instance} :
    ∀ {reqs : List Instance}, r ∉ reqs → (clonedReqs reqs).count r = 0 := by
  intro reqs h
  induction reqs with
  | nil => rfl
  | cons a t ih =>
    have hne : a ≠ r := fun e => h (e ▸ List.mem_cons_self a t)
    have hnt : r ∉ t := fun e => h (List.mem_cons_of_mem _ e)
    unfold clonedReqs at *
    rw [List.map_cons, List.flatten_cons, List.count_append, ih hnt,
      List.count_replicate]
    simp [hne]

theorem count_clonedReqs {r : Instance} :
    ∀ {reqs : List Instance}, reqs.Nodup → r ∈ reqs →
      (clonedReqs reqs).count r = r.repeats := by
  intro reqs hnd hr
  induction reqs with
  | nil => cases hr
  | cons a t ih =>
    unfold clonedReqs at *
    rw [List.map_cons, List.flatten_cons, List.count_append]
    rcases List.mem_cons.mp hr with rfl | hrt
    · have hnt : r ∉ t := (List.nodup_cons.mp hnd).1
      have : ((t.map (fun x => List.replicate x.repeats x)).flatten).count r = 0 :=
        count_clonedReqs_zero hnt
      rw [this, List.count_replicate]
      simp
    · have hne : a ≠ r := fun e => (List.nodup_cons.mp hnd).1 (e ▸ hrt)
      rw [ih (List.nodup_cons.mp hnd).2 hrt, List.count_replicate]
      simp [hne]

theorem count_flatten_replicate (n : Nat) (l : List Instance) (r : Instance) :
    ((List.replicate n l).flatten).count r = n * l.count r := by
  induction n with
  | zero => simp
  | succ m ih =>
    rw [List.replicate_succ, List.flatten_cons, List.count_append, ih]
    ring

/-- C4 as amended.  After dispatch with a well-behaved backend (one response
per submitted copy), an instance that is not the padding template — the
last instance of the request-type group — has exactly `repeats` responses;
the last instance itself additionally receives every padding copy's
response, ending with `repeats * (1 + padding)` responses when more than
one worker is active and the padding count is positive.  Padding responses
are appended onto that shared backing instance, not discarded. -/
theorem dispatch_resp_counts (worldSize numpadCount : Nat) (reqs : List Instance)
    (hnd : reqs.Nodup) (r : Instance) (hr : r ∈ reqs) :
    dispatchRespCount worldSize numpadCount reqs
        (paddedReqs worldSize numpadCount reqs).length r =
      if 1 < worldSize ∧ 0 < numpadCount ∧ reqs.getLast? = some r
      then r.repeats * (1 + numpadCount) else r.repeats := by
  unfold dispatchRespCount
  rw [List.take_length]
  by_cases hc : 1 < worldSize ∧ 0 < numpadCount
  · rcases hl : reqs.getLast? with _ | rl
    · rcases reqs with _ | ⟨a, t⟩
      · cases hr
      · rw [List.getLast?_eq_none_iff] at hl
        cases hl
    · unfold paddedReqs
      rw [if_pos hc, hl, List.count_append, count_flatten_replicate,
        count_clonedReqs hnd hr]
      by_cases hrl : rl = r
      · subst hrl
        rw [if_pos ⟨hc.1, hc.2, rfl⟩]
        rw [List.count_replicate]
        simp
        ring
      · have : ¬ (1 < worldSize ∧ 0 < numpadCount ∧ some rl = some r) := by
          intro h
          exact hrl (Option.some_injective _ h.2.2)
        rw [if_neg this, List.count_replicate]
        simp [beq_iff_eq, hrl]
  · unfold paddedReqs
    rw [if_neg hc, count_clonedReqs hnd hr, if_neg (fun h => hc ⟨h.1, h.2.1⟩)]

/-- Witness for `dispatch_resp_counts`: two instances with `repeats` 2 and
1, `world_size = 2`, padding count 1; the first (non-last) instance gets
exactly its 2 responses. -/
theorem dispatch_resp_counts_witness :
    ([⟨0, 0, 2, []⟩, ⟨1, 0, 1, []⟩] : List Instance).Nodup ∧
    (⟨0, 0, 2, []⟩ : Instance) ∈ ([⟨0, 0, 2, []⟩, ⟨1, 0, 1, []⟩] : List Instance) ∧
    dispatchRespCount 2 1 [⟨0, 0, 2, []⟩, ⟨1, 0, 1, []⟩]
        (paddedReqs 2 1 [⟨0, 0, 2, []⟩, ⟨1, 0, 1, []⟩]).length ⟨0, 0, 2, []⟩ =
      (if 1 < 2 ∧ 0 < 1 ∧
          ([⟨0, 0, 2, []⟩, ⟨1, 0, 1, []⟩] : List Instance).getLast? = some ⟨0, 0, 2, []⟩
        then (⟨0, 0, 2, []⟩ : Instance).repeats * (1 + 1)
        else (⟨0, 0, 2, []⟩ : Instance).repeats) :=
  ⟨by decide, by decide,
    dispatch_resp_counts 2 1 [⟨0, 0, 2, []⟩, ⟨1, 0, 1, []⟩] (by decide)
      ⟨0, 0, 2, []⟩ (by decide)⟩

/-- C4 as stated fails on the code: with one local instance of `repeats = 1`,
`world_size = 2` and padding count 1, the backend is handed two copies and
both responses are appended onto the same instance, whose response count
ends at `2`, not at `repeats = 1`; the padding copy's response is not
discarded. -/
theorem dispatch_pads_last_instance_counterexample :
    dispatchRespCount 2 1 [⟨0, 0, 1, []⟩]
        (paddedReqs 2 1 [⟨0, 0, 1, []⟩]).length ⟨0, 0, 1, []⟩ = 2 ∧
    (⟨0, 0, 1, []⟩ : Instance).repeats = 1 ∧ (2 : Nat) ≠ 1 := by
  decide

theorem sum_map_add_nat {α : Type} (f g : α → Nat) :
    ∀ l : List α, (l.map (fun x => f x + g x)).sum = (l.map f).sum + (l.map g).sum := by
  intro l
  induction l with
  | nil => rfl
  | cons a t ih =>
    rw [List.map_cons, List.map_cons, List.map_cons, List.sum_cons, List.sum_cons,
      List.sum_cons, ih]
    omega

theorem sum_indicator_not_mem {x : Instance} :
    ∀ {ids : List Instance}, x ∉ ids →
      (ids.map (fun i => if x == i then 1 else 0)).sum = 0 := by
  intro ids h
  induction ids with
  | nil => rfl
  | cons a t ih =>
    have hne : ¬ (x == a) = true := by
      simp only [beq_iff_eq]
      exact fun e => h (e ▸ List.mem_cons_self a t)
    rw [List.map_cons, List.sum_cons, if_neg hne, ih (fun e => h (List.mem_cons_of_mem _ e))]

theorem sum_indicator_mem {x : Instance} :
    ∀ {ids : List Instance}, ids.Nodup → x ∈ ids →
      (ids.map (fun i => if x == i then 1 else 0)).sum = 1 := by
  intro ids hnd hx
  induction ids with
  | nil => cases hx
  | cons a t ih =>
    rw [List.map_cons, List.sum_cons]
    rcases List.mem_cons.mp hx with rfl | hxt
    · rw [if_pos (by simp), sum_indicator_not_mem (List.nodup_cons.mp hnd).1]
    · have hne : ¬ (x == a) = true := by
        simp only [beq_iff_eq]
        exact fun e => (List.nodup_cons.mp hnd).1 (e.symm ▸ hxt)
      rw [if_neg hne, ih (List.nodup_cons.mp hnd).2 hxt]

theorem sum_counts_eq_length (ids : List Instance) (hnd : ids.Nodup) :
    ∀ l : List Instance, (∀ x ∈ l, x ∈ ids) →
      (ids.map (fun i => l.count i)).sum = l.length := by
  intro l
  induction l with
  | nil =>
    intro _
    have : ids.map (fun i => List.count i ([] : List Instance)) = ids.map (fun _ => 0) := by
      apply List.map_congr_left
      intro a _
      rfl
    rw [this]
    simp
  | cons x t ih =>
    intro h
    have hstep : ids.map (fun i => (x :: t).count i)
        = ids.map (fun i => t.count i + if x == i then 1 else 0) := by
      apply List.map_congr_left
      intro a _
      rw [List.count_cons]
    rw [hstep, sum_map_add_nat, ih (fun y hy => h y (List.mem_cons_of_mem _ hy)),
      sum_indicator_mem hnd (h x (List.mem_cons_self x t)), List.length_cons]

theorem mem_of_mem_clonedReqs {x : Instance} {reqs : List Instance}
    (h : x ∈ clonedReqs reqs) : x ∈ reqs := by
  unfold clonedReqs at h
  rcases List.mem_flatten.mp h with ⟨l, hl, hx⟩
  rcases List.mem_map.mp hl with ⟨r, hr, rfl⟩
  rw [List.eq_of_mem_replicate hx]
  exact hr

theorem mem_of_mem_paddedReqs {x : Instance} {worldSize numpadCount : Nat}
    {reqs : List Instance} (h : x ∈ paddedReqs worldSize numpadCount reqs) :
    x ∈ reqs := by
  unfold paddedReqs at h
  by_cases hc : 1 < worldSize ∧ 0 < numpadCount
  · rw [if_pos hc] at h
    rcases hl : reqs.getLast? with _ | rl
    · rw [hl] at h
      exact mem_of_mem_clonedReqs h
    · rw [hl] at h
      rcases List.mem_append.mp h with h1 | h2
      · exact mem_of_mem_clonedReqs h1
      · rcases List.mem_flatten.mp h2 with ⟨l, hml, hx⟩
        rw [List.eq_of_mem_replicate hml] at hx
        rw [List.eq_of_mem_replicate hx]
        exact List.mem_of_getLast?_eq_some hl
  · rw [if_neg hc] at h
    exact mem_of_mem_clonedReqs h

/-- C5 as amended.  Dispatch of a request-type batch performs no validation
of the backend's response count: the write-back loop
`for x, req in zip(resps, cloned_reqs)` (evaluator.py lines 432-433) pairs
responses with submitted copies positionally up to the shorter of the two
lists, so the dispatch always completes without error; in total exactly
`min(len(resps), len(cloned_reqs))` responses are written back — surplus
responses are silently ignored and missing responses silently leave copies
without a response, and the partial write-back is accepted as success. -/
theorem dispatch_has_no_mismatch_check (worldSize numpadCount : Nat)
    (reqs : List Instance) (hnd : reqs.Nodup) (numResps : Nat) :
    dispatchOutcome worldSize numpadCount reqs numResps =
      Except.ok (reqs.map (fun r =>
        (r, dispatchRespCount worldSize numpadCount reqs numResps r))) ∧
    (reqs.map (fun r => dispatchRespCount worldSize numpadCount reqs numResps r)).sum =
      min numResps (paddedReqs worldSize numpadCount reqs).length := by
  refine ⟨rfl, ?_⟩
  unfold dispatchRespCount
  rw [sum_counts_eq_length reqs hnd _
    (fun x hx => mem_of_mem_paddedReqs (List.mem_of_mem_take hx)), List.length_take]

/-- Witness for `dispatch_has_no_mismatch_check`: one instance with
`repeats = 2` (two submitted copies) and only one backend response; the
dispatch succeeds and writes back a single response. -/
theorem dispatch_has_no_mismatch_check_witness :
    ([⟨0, 0, 2, []⟩] : List Instance).Nodup ∧
    (dispatchOutcome 1 0 [⟨0, 0, 2, []⟩] 1 =
      Except.ok (([⟨0, 0, 2, []⟩] : List Instance).map (fun r =>
        (r, dispatchRespCount 1 0 [⟨0, 0, 2, []⟩] 1 r))) ∧
     (([⟨0, 0, 2, []⟩] : List Instance).map
        (fun r => dispatchRespCount 1 0 [⟨0, 0, 2, []⟩] 1 r)).sum =
       min 1 (paddedReqs 1 0 [⟨0, 0, 2, []⟩]).length) :=
  ⟨by decide, dispatch_has_no_mismatch_check 1 0 [⟨0, 0, 2, []⟩] (by decide) 1⟩

/-- C5 as stated fails on the code: submitting one instance with
`repeats = 2` (two copies) against a backend that returns a single response
does not abort — the dispatch reports success with a partial write-back of
one response onto an instance that expected two. -/
theorem dispatch_mismatch_not_fatal_counterexample :
    dispatchOutcome 1 0 [⟨0, 0, 2, []⟩] 1 = Except.ok [(⟨0, 0, 2, []⟩, 1)] ∧
    (⟨0, 0, 2, []⟩ : Instance).repeats = 2 ∧ (1 : Nat) ≠ 2 :=
  ⟨rfl, rfl, by decide⟩

/-! ### Result collection: grouping and ordering (evaluator.py lines 450-455, 483-485)

Lines 450-452 bucket `task.instances` by `doc_id` into a
`defaultdict(list)` (appending in iteration order); lines 454-455 sort each
bucket in place with Python's stable `list.sort(key=lambda x: x.idx)`.
Line 485 then passes `[req.filtered_resps[filter_key] for req in requests]`
to `task.process_results` — but the enclosing loop (line 457) binds the
name `key`, not `filter_key`, and no assignment to `filter_key` exists
anywhere in `evaluate`, so that comprehension raises `NameError` on the
first document of every task. -/

/-- The `defaultdict` bucket `instances_by_doc_id[d]`: instances are
appended in the order they occur in `task.instances`. -/
def instancesByDocId (insts : List Instance) (d : Nat) : List Instance :=
  insts.foldl (fun acc i => if i.doc_id == d then acc ++ [i] else acc) []

/-- The comparison used by `instances.sort(key=lambda x: x.idx)`. -/
def idxLe (a b : Instance) : Bool := decide (a.idx ≤ b.idx)

/-- The bucket for `d` after the in-place stable sort of line 455.  Python's
`list.sort` is stable; `List.mergeSort` is the stable sort of the
embedding. -/
def sortedDocGroup (insts : List Instance) (d : Nat) : List Instance :=
  (instancesByDocId insts d).mergeSort idxLe

/-- The function-local names visible to the comprehension at line 485 that
could resolve `filter_key`: the filter loop variable is named `key`
(line 457), and `evaluate` never assigns `filter_key`. -/
def filterLoopLocals (currentFilter : String) : List (String × String) :=
  [("key", currentFilter)]

/-- Embeds the argument-building comprehension of line 485,
`[req.filtered_resps[filter_key] for req in requests]`, including the
resolution of the free name `filter_key` against the function-local
environment; were the name bound to a filter name `fk`, the call would
receive the `fk`-filtered responses of the bucket in sorted order. -/
def metricArgsAtLine485 (insts : List Instance) (d : Nat) (currentFilter : String) :
    Except String (List (Option Int)) :=
  match (filterLoopLocals currentFilter).lookup ("filter_key") with
  | none => Except.error ("NameError: name filter_key is not defined")
  | some fk =>
      Except.ok ((sortedDocGroup insts d).map (fun i => i.filtered_resps.lookup fk))

theorem idxLe_trans (a b c : Instance) : idxLe a b → idxLe b c → idxLe a c := by
  simp only [idxLe, decide_eq_true_eq]
  omega

theorem idxLe_total (a b : Instance) : idxLe a b || idxLe b a := by
  simp only [idxLe]
  by_cases h : a.idx ≤ b.idx
  · simp [h]
  · simp [h, Nat.le_of_lt (Nat.lt_of_not_le h)]

/-- C7, first part (lines 450-455, which the code does implement): the
per-document bucket, after the in-place sort, is (i) sorted by `idx` in
ascending order, (ii) a permutation of the instances of that document in
their original order, and (iii) stably sorted — any subsequence of the
original bucket that is already ordered by `idx` (in particular any pair
of equal-`idx` instances) survives as a subsequence of the sorted bucket.
Second part: the handoff at line 485 nevertheless cannot deliver this
ordered argument list, because the comprehension reads the undefined name
`filter_key` and raises `NameError`. -/
theorem collect_sorted_groups_but_handoff_crashes (insts : List Instance) (d : Nat)
    (currentFilter : String) :
    (sortedDocGroup insts d).Pairwise (fun a b => a.idx ≤ b.idx) ∧
    (sortedDocGroup insts d).Perm (instancesByDocId insts d) ∧
    (∀ c : List Instance, c.Sublist (instancesByDocId insts d) →
      c.Pairwise (fun a b => a.idx ≤ b.idx) → c.Sublist (sortedDocGroup insts d)) ∧
    metricArgsAtLine485 insts d currentFilter =
      Except.error ("NameError: name filter_key is not defined") := by
  refine ⟨?_, ?_, ?_, rfl⟩
  · have h := List.sorted_mergeSort idxLe_trans idxLe_total
      (instancesByDocId insts d)
    exact h.imp (fun hab => by simpa [idxLe] using hab)
  · exact List.mergeSort_perm _ _
  · intro c hsub hpair
    exact List.sublist_mergeSort idxLe_trans idxLe_total
      (hpair.imp (fun hab => by simpa [idxLe] using hab)) hsub

/-- Witness for `collect_sorted_groups_but_handoff_crashes`: a four-instance
list with two equal-`idx` instances of document 0; the stability clause is
instantiated on that equal-`idx` pair in original order. -/
theorem collect_sorted_groups_witness :
    ([⟨0, 0, 1, [("f", 5)]⟩, ⟨0, 0, 1, []⟩] : List Instance).Sublist
      (sortedDocGroup [⟨0, 2, 1, []⟩, ⟨0, 0, 1, [("f", 5)]⟩, ⟨1, 1, 1, []⟩, ⟨0, 0, 1, []⟩] 0) :=
  (collect_sorted_groups_but_handoff_crashes
      [⟨0, 2, 1, []⟩, ⟨0, 0, 1, [("f", 5)]⟩, ⟨1, 1, 1, []⟩, ⟨0, 0, 1, []⟩] 0
      ("raw")).2.2.1
    [⟨0, 0, 1, [("f", 5)]⟩, ⟨0, 0, 1, []⟩] (by decide) (by decide)

/-! ### Group higher-is-better consolidation (evaluator.py lines 628-639)

The loop creates `_higher_is_better = {}` once, before iterating
`subtask_list.items()`; for every group with a non-empty subtask list it
folds each subtask's metric-polarity dict into that single accumulator and
then executes `higher_is_better[group] = _higher_is_better` — binding the
group's entry to the same dict object, which is never reset.  Dicts are
modelled as insertion-ordered association lists; `higher_is_better[task]`
(produced outside this module by `consolidate_results`) is modelled as the
task's metric-polarity list handed in as input. -/

/-- The accumulator `_higher_is_better`: metric name to recorded polarity
(`none` once a conflict was detected). -/
abbrev HibMap := List (String × Option Bool)

/-- Python dict assignment `d[k] = v`: overwrite in place when the key is
present (keeping its position), append otherwise. -/
def hibSet (acc : HibMap) (k : String) (v : Option Bool) : HibMap :=
  if (acc.lookup k).isSome then
    acc.map (fun p => if p.1 == k then (p.1, v) else p)
  else acc ++ [(k, v)]

/-- The accumulator together with the warnings emitted so far. -/
structure HibState where
  acc : HibMap
  warnings : List String
deriving DecidableEq, Repr

/-- One iteration of `for m, h in higher_is_better[task].items()`
(evaluator.py lines 632-638): insert the metric when absent, then, when the
recorded polarity is neither `None` nor equal to the incoming one, warn and
overwrite with `None`.  No branch raises. -/
def hibStep (group : String) (s : HibState) (mh : String × Bool) : HibState :=
  let acc1 := if (s.acc.lookup mh.1).isNone then hibSet s.acc mh.1 (some mh.2) else s.acc
  match acc1.lookup mh.1 with
  | some v =>
      if v ≠ none ∧ v ≠ some mh.2 then
        { acc := hibSet acc1 mh.1 none,
          warnings := s.warnings ++
            ["Higher_is_better values for metric " ++ mh.1 ++ " in group " ++ group ++
              " are not consistent. Defaulting to None."] }
      else { acc := acc1, warnings := s.warnings }
  | none => { acc := acc1, warnings := s.warnings }

/-- The `for task in task_list` body: fold one subtask's metric dict. -/
def hibFoldTask (group : String) (s : HibState) (t : List (String × Bool)) : HibState :=
  t.foldl (hibStep group) s

/-- The `for group, task_list in subtask_list.items()` body, guarded by
`if len(task_list) != 0`. -/
def hibFoldGroup (s : HibState) (g : String × List (List (String × Bool))) : HibState :=
  if g.2.isEmpty then s else g.2.foldl (hibFoldTask g.1) s

/-- The accumulator and warnings after the whole loop. -/
def hibFinal (groups : List (String × List (List (String × Bool)))) : HibState :=
  groups.foldl hibFoldGroup ⟨[], []⟩

/-- The entry `higher_is_better[group]` after the loop.  Python assigns the
same dict object to every non-empty group, so at the end each such entry
aliases the final accumulator. -/
def groupHigherIsBetter (groups : List (String × List (List (String × Bool))))
    (g : String) : Option HibMap :=
  if groups.any (fun p => p.1 == g && !p.2.isEmpty) then some (hibFinal groups).acc
  else none

/-- C8. Two sibling tasks under one group declaring opposite polarities for
the same metric make the consolidation record polarity `None` for the group
and emit the inconsistency warning; the loop completes normally (the
embedding is a total function — no branch of lines 628-639 raises) and the
recorded value is neither of the two declared polarities. -/
theorem hib_conflict_defaults_to_none (g m : String) (b : Bool) :
    groupHigherIsBetter [(g, [[(m, b)], [(m, !b)]])] g = some [(m, none)] ∧
    (hibFinal [(g, [[(m, b)], [(m, !b)]])]).warnings =
      ["Higher_is_better values for metric " ++ m ++ " in group " ++ g ++
        " are not consistent. Defaulting to None."] := by
  have hb : ¬ (b = !b) := by cases b <;> decide
  constructor
  · simp [groupHigherIsBetter, hibFinal, hibFoldGroup, hibFoldTask, hibStep, hibSet, hb]
  · simp [hibFinal, hibFoldGroup, hibFoldTask, hibStep, hibSet, hb]

/-- Witness for `hib_conflict_defaults_to_none` at the concrete group
`g`, metric `acc`, polarities `true` then `false`. -/
theorem hib_conflict_defaults_to_none_witness :
    groupHigherIsBetter [("g", [[("acc", true)], [("acc", !true)]])] ("g") =
      some [("acc", none)] ∧
    (hibFinal [("g", [[("acc", true)], [("acc", !true)]])]).warnings =
      ["Higher_is_better values for metric " ++ "acc" ++ " in group " ++ "g" ++
        " are not consistent. Defaulting to None."] :=
  hib_conflict_defaults_to_none ("g") ("acc") true

theorem lookup_map_overwrite (acc : HibMap) (k : String) (v : Option Bool) (j : String) :
    ((acc.map (fun p => if p.1 == k then (p.1, v) else p)).lookup j).isSome
      = (acc.lookup j).isSome := by
  induction acc with
  | nil => rfl
  | cons p t ih =>
    rcases p with ⟨k1, v1⟩
    have hhead : (if ((k1, v1) : String × Option Bool).1 == k
        then (((k1, v1) : String × Option Bool).1, v) else (k1, v1))
        = (k1, if k1 == k then v else v1) := by
      by_cases h : k1 == k <;> simp [h]
    rw [List.map_cons, hhead, List.lookup_cons, List.lookup_cons]
    by_cases h2 : j = k1
    · subst h2
      simp
    · have hf : (j == k1) = false := beq_eq_false_iff_ne.mpr h2
      simp only [hf]
      exact ih

theorem lookup_hibSet_preserve {acc : HibMap} {j : String} (k : String) (v : Option Bool)
    (h : (acc.lookup j).isSome = true) :
    ((hibSet acc k v).lookup j).isSome = true := by
  unfold hibSet
  by_cases hk : (acc.lookup k).isSome
  · rw [if_pos hk, lookup_map_overwrite]
    exact h
  · rw [if_neg hk, List.lookup_append]
    rcases hj : acc.lookup j with _ | x
    · rw [hj] at h
      cases h
    · simp [hj]

theorem lookup_hibSet_self (acc : HibMap) (k : String) (v : Option Bool) :
    ((hibSet acc k v).lookup k).isSome = true := by
  unfold hibSet
  by_cases hk : (acc.lookup k).isSome
  · rw [if_pos hk, lookup_map_overwrite]
    exact hk
  · rw [if_neg hk, List.lookup_append]
    have : acc.lookup k = none := by
      rcases h : acc.lookup k with _ | x
      · rfl
      · rw [h] at hk
        simp at hk
    simp [this, List.lookup]

theorem hibStep_preserves {m : String} (group : String) (s : HibState) (mh : String × Bool)
    (h : (s.acc.lookup m).isSome = true) :
    (((hibStep group s mh).acc).lookup m).isSome = true := by
  unfold hibStep
  have hacc1 : ∀ acc1 : HibMap, acc1 = (if (s.acc.lookup mh.1).isNone
      then hibSet s.acc mh.1 (some mh.2) else s.acc) → (acc1.lookup m).isSome = true := by
    intro acc1 he
    subst he
    by_cases hn : (s.acc.lookup mh.1).isNone
    · rw [if_pos hn]
      exact lookup_hibSet_preserve _ _ h
    · rw [if_neg hn]
      exact h
  have h1 := hacc1 _ rfl
  rcases hm : (if (s.acc.lookup mh.1).isNone
      then hibSet s.acc mh.1 (some mh.2) else s.acc).lookup mh.1 with _ | v
  · simp only [hm]
    exact h1
  · simp only [hm]
    by_cases hcond : v ≠ none ∧ v ≠ some mh.2
    · rw [if_pos hcond]
      exact lookup_hibSet_preserve _ _ h1
    · rw [if_neg hcond]
      exact h1

theorem hibStep_establishes {m : String} (group : String) (s : HibState)
    (mh : String × Bool) (he : mh.1 = m) :
    (((hibStep group s mh).acc).lookup m).isSome = true := by
  subst he
  unfold hibStep
  have h1 : ((if (s.acc.lookup mh.1).isNone
      then hibSet s.acc mh.1 (some mh.2) else s.acc).lookup mh.1).isSome = true := by
    by_cases hn : (s.acc.lookup mh.1).isNone
    · rw [if_pos hn]
      exact lookup_hibSet_self _ _ _
    · rw [if_neg hn]
      rcases h : s.acc.lookup mh.1 with _ | x
      · rw [h] at hn
        simp at hn
      · simp
  rcases hm : (if (s.acc.lookup mh.1).isNone
      then hibSet s.acc mh.1 (some mh.2) else s.acc).lookup mh.1 with _ | v
  · rw [hm] at h1
    cases h1
  · simp only [hm]
    by_cases hcond : v ≠ none ∧ v ≠ some mh.2
    · rw [if_pos hcond]
      exact lookup_hibSet_self _ _ _
    · rw [if_neg hcond]
      exact h1

theorem foldl_preserve {σ α : Type} {f : σ → α → σ} {P : σ → Prop}
    (hf : ∀ s a, P s → P (f s a)) :
    ∀ (l : List α) (s : σ), P s → P (l.foldl f s) := by
  intro l
  induction l with
  | nil =>
    intro s h
    exact h
  | cons x t ih =>
    intro s h
    exact ih _ (hf s x h)

theorem foldl_establish {σ α : Type} {f : σ → α → σ} {P : σ → Prop}
    (hf : ∀ s a, P s → P (f s a)) (a : α) (ha : ∀ s, P (f s a)) :
    ∀ (l : List α) (s : σ), a ∈ l → P (l.foldl f s) := by
  intro l
  induction l with
  | nil =>
    intro s h
    cases h
  | cons x t ih =>
    intro s h
    rcases List.mem_cons.mp h with rfl | ht
    · exact foldl_preserve hf t _ (ha s)
    · exact ih _ ht

theorem hibFoldTask_preserves {m : String} (group : String) (t : List (String × Bool))
    (s : HibState) (h : (s.acc.lookup m).isSome = true) :
    (((hibFoldTask group s t).acc).lookup m).isSome = true :=
  foldl_preserve (fun s' a h' => hibStep_preserves group s' a h') t s h

theorem hibFoldTask_establishes {m : String} {b : Bool} (group : String)
    (t : List (String × Bool)) (hm : (m, b) ∈ t) (s : HibState) :
    (((hibFoldTask group s t).acc).lookup m).isSome = true :=
  foldl_establish (fun s' a h' => hibStep_preserves group s' a h') (m, b)
    (fun s' => hibStep_establishes group s' (m, b) rfl) t s hm

theorem hibFoldGroup_preserves {m : String} (g : String × List (List (String × Bool)))
    (s : HibState) (h : (s.acc.lookup m).isSome = true) :
    (((hibFoldGroup s g).acc).lookup m).isSome = true := by
  unfold hibFoldGroup
  by_cases he : g.2.isEmpty
  · rw [if_pos he]
    exact h
  · rw [if_neg he]
    exact foldl_preserve (fun s' t h' => hibFoldTask_preserves g.1 t s' h') g.2 s h

theorem hibFoldGroup_establishes {m : String} {b : Bool}
    (g : String × List (List (String × Bool))) (t : List (String × Bool))
    (ht : t ∈ g.2) (hm : (m, b) ∈ t) (s : HibState) :
    (((hibFoldGroup s g).acc).lookup m).isSome = true := by
  unfold hibFoldGroup
  have he : ¬ g.2.isEmpty := by
    rcases hg : g.2 with _ | ⟨x, xs⟩
    · rw [hg] at ht
      cases ht
    · simp
  rw [if_neg he]
  exact foldl_establish (fun s' t' h' => hibFoldTask_preserves g.1 t' s' h') t
    (fun s' => hibFoldTask_establishes g.1 t hm s') g.2 s ht

/-- C10. The accumulator `_higher_is_better` is created once before the
group loop (evaluator.py line 628) and never reset; every group with a
non-empty subtask list is assigned this same shared mapping (line 639), so
the mapping recorded for a group contains the metric keys contributed by
the subtasks of every other processed group — in particular of previously
processed ones — not only those of its own children.  Stated: for any group
`g` with a non-empty subtask list, its recorded mapping is the final shared
accumulator; that accumulator contains every metric `m` declared by any
subtask of any group; and all non-empty groups receive the identical
mapping. -/
theorem hib_accumulator_shared_across_groups
    (groups : List (String × List (List (String × Bool))))
    (g gPrev : String) (ts tsPrev : List (List (String × Bool)))
    (hg : (g, ts) ∈ groups) (hts : ts ≠ [])
    (hgPrev : (gPrev, tsPrev) ∈ groups)
    (t : List (String × Bool)) (ht : t ∈ tsPrev) (m : String) (b : Bool)
    (hm : (m, b) ∈ t) :
    groupHigherIsBetter groups g = some (hibFinal groups).acc ∧
    (((hibFinal groups).acc).lookup m).isSome = true ∧
    (∀ g2 ts2, (g2, ts2) ∈ groups → ts2 ≠ [] →
      groupHigherIsBetter groups g2 = groupHigherIsBetter groups g) := by
  have hassign : ∀ g2 ts2, (g2, ts2) ∈ groups → ts2 ≠ [] →
      groupHigherIsBetter groups g2 = some (hibFinal groups).acc := by
    intro g2 ts2 hmem hne
    unfold groupHigherIsBetter
    have : groups.any (fun p => p.1 == g2 && !p.2.isEmpty) = true := by
      rw [List.any_eq_true]
      refine ⟨(g2, ts2), hmem, ?_⟩
      simp [hne]
    rw [if_pos this]
  refine ⟨hassign g ts hg hts, ?_, ?_⟩
  · unfold hibFinal
    exact foldl_establish (fun s' g' h' => hibFoldGroup_preserves g' s' h') (gPrev, tsPrev)
      (fun s' => hibFoldGroup_establishes (gPrev, tsPrev) t ht hm s') groups _ hgPrev
  · intro g2 ts2 hmem hne
    rw [hassign g2 ts2 hmem hne, hassign g ts hg hts]

/-- Witness for `hib_accumulator_shared_across_groups`: two groups, each
with one subtask declaring one metric; group `g2` ends up holding `g1`'s
metric `m1` as well, and both groups hold the identical mapping. -/
theorem hib_accumulator_shared_witness :
    (((hibFinal [("g1", [[("m1", true)]]), ("g2", [[("m2", false)]])]).acc).lookup
      ("m1")).isSome = true ∧
    groupHigherIsBetter [("g1", [[("m1", true)]]), ("g2", [[("m2", false)]])] ("g1") =
      groupHigherIsBetter [("g1", [[("m1", true)]]), ("g2", [[("m2", false)]])] ("g2") :=
  ⟨(hib_accumulator_shared_across_groups
      [("g1", [[("m1", true)]]), ("g2", [[("m2", false)]])]
      ("g2") ("g1") [[("m2", false)]] [[("m1", true)]]
      (by decide) (by decide) (by decide) [("m1", true)] (by decide)
      ("m1") true (by decide)).2.1,
   (hib_accumulator_shared_across_groups
      [("g1", [[("m1", true)]]), ("g2", [[("m2", false)]])]
      ("g2") ("g1") [[("m2", false)]] [[("m1", true)]]
      (by decide) (by decide) (by decide) [("m1", true)] (by decide)
      ("m1") true (by decide)).2.2 ("g1") [[("m1", true)]] (by decide) (by decide)⟩

/-! ### The bypass configuration check (evaluator.py lines 347-349) -/

/-- Embeds the configuration guard: with sample logging disabled,
`evaluate` raises `ValueError` as soon as any selected task's metric list
(`_metric_fn_list`) contains the `bypass` metric. -/
def checkBypassConfig (logSamples : Bool) (metricLists : List (List String)) :
    Except String Unit :=
  if !logSamples then
    if !(metricLists.all (fun ms => !(ms.contains ("bypass")))) then
      Except.error ("log_samples must be True for bypass metric-only tasks")
    else Except.ok ()
  else Except.ok ()

/-- The guard (line 347) runs before any request is dispatched (the dispatch
loop starts at line 417): the result of the run up to dispatch is the
error, whatever the dispatch would have produced. -/
def evaluateUpToDispatch {ρ : Type} (logSamples : Bool)
    (metricLists : List (List String)) (dispatched : ρ) : Except String ρ :=
  match checkBypassConfig logSamples metricLists with
  | Except.error e => Except.error e
  | Except.ok _ => Except.ok dispatched

/-- C9. If sample logging is disabled while some selected task's metric
list contains the `bypass` metric, `evaluate` fails immediately with the
configuration error, independently of anything the dispatch stage would
return — no request is dispatched. -/
theorem bypass_requires_log_samples {ρ : Type} (metricLists : List (List String))
    (ms : List String) (hms : ms ∈ metricLists)
    (hb : ms.contains ("bypass") = true) (dispatched : ρ) :
    evaluateUpToDispatch false metricLists dispatched =
      Except.error ("log_samples must be True for bypass metric-only tasks") := by
  unfold evaluateUpToDispatch checkBypassConfig
  have hall : metricLists.all (fun l => !(l.contains ("bypass"))) = false := by
    rw [List.all_eq_false]
    refine ⟨ms, hms, ?_⟩
    simp only [hb]
    decide
  rw [hall]
  rfl

/-- Witness for `bypass_requires_log_samples`: a single task whose metric
list is exactly `[bypass]`, with sample logging off. -/
theorem bypass_requires_log_samples_witness :
    (["bypass"] : List String) ∈ ([["bypass"]] : List (List String)) ∧
    (["bypass"] : List String).contains ("bypass") = true ∧
    evaluateUpToDispatch false [["bypass"]] ([] : List Int) =
      Except.error ("log_samples must be True for bypass metric-only tasks") :=
  ⟨by decide, by decide,
    bypass_requires_log_samples [["bypass"]] ["bypass"] (by decide) (by decide) []⟩

end LmmsEval
